import Mathlib

/-!
Verification of the extendr-api call-bridge core.

The registration path (CallMethod, register_call_methods) is embedded
directly from src/extendr-api/src/lib.rs.  The marshalling layer, the
object-handle protection model and the generated wrappers live in crate
modules that are referenced but not present under src/, so those parts
are modelled from the specification, as marked on each definition.

Modelling conventions:
  - raw pointers are addresses (Nat); a nullable pointer is an Option,
    with none standing for the null pointer;
  - a CString is its String contents (the pointer returned by as_ptr
    designates the null-terminated bytes of that string and is never
    null);
  - the effect of an FFI procedure is the list of host calls it makes,
    each call recorded as a structure of its arguments.
-/

/-- One registration record built by the code generated from the
extendr attribute: symbol name, wrapper function pointer and declared
argument count (source: struct CallMethod, src/extendr-api/src/lib.rs
lines 89-93). -/
structure CallMethod where
  call_symbol : String
  func_ptr : Nat
  num_args : Int
deriving DecidableEq

/-- The host registration-table entry type R_CallMethodDef: a possibly
null pointer to a null-terminated name, a possibly null function
pointer, and the declared arity.  The Rust field fun is called fn here
because fun is reserved. -/
structure R_CallMethodDef where
  name : Option String
  fn : Option Nat
  numArgs : Int
deriving DecidableEq

/-- The table entry built from one CallMethod by register_call_methods
(lines 100-104): name points at the symbol bytes, fun wraps the
transmuted function pointer, numArgs is copied. -/
def toCallMethodDef (m : CallMethod) : R_CallMethodDef :=
  ⟨some m.call_symbol, some m.func_ptr, m.num_args⟩

/-- The all-null terminating entry pushed at lines 107-111: null name,
None function, numArgs 0. -/
def nullMethodDef : R_CallMethodDef :=
  ⟨none, none, 0⟩

/-- The vector rmethods as it stands when handed to the host: the mapped
entries in input order followed by the single pushed terminator
(lines 98-111). -/
def buildCallMethodTable (methods : List CallMethod) : List R_CallMethodDef :=
  methods.map toCallMethodDef ++ [nullMethodDef]

/-- One call to the host routine-registration entry point, recorded as
its five arguments: the DllInfo handle and the four routine tables
(.C, .Call, .Fortran, .External), each either null or a pointed-to
table. -/
structure RegisterRoutinesCall where
  info : Nat
  croutines : Option (List Unit)
  callRoutines : Option (List R_CallMethodDef)
  fortranRoutines : Option (List Unit)
  externalRoutines : Option (List Unit)
deriving DecidableEq

/-- register_call_methods (lines 97-122): builds the table from the
descriptor slice, pushes the terminator, and performs exactly one host
call, R_registerRoutines(info, null, rmethods.as_ptr(), null, null).
The returned list is the sequence of host calls performed. -/
def register_call_methods (info : Nat) (methods : List CallMethod) :
    List RegisterRoutinesCall :=
  [⟨info, none, some (buildCallMethodTable methods), none, none⟩]

-- Basic facts about the built table, shared by the claim theorems.

theorem buildCallMethodTable_length (methods : List CallMethod) :
    (buildCallMethodTable methods).length = methods.length + 1 := by
  simp [buildCallMethodTable]

theorem buildCallMethodTable_getLast (methods : List CallMethod) :
    (buildCallMethodTable methods).getLast? = some nullMethodDef := by
  simp [buildCallMethodTable]

theorem buildCallMethodTable_get (methods : List CallMethod) (i : Nat)
    (h : i < methods.length) :
    (buildCallMethodTable methods)[i]? =
      (methods[i]?).map toCallMethodDef := by
  rw [buildCallMethodTable, List.getElem?_append_left (by simpa using h)]
  simp [List.getElem?_map]

/-- Modelled from the spec: the registration record the host keeps for
one loaded library after a call to its registration entry point
(R_registerRoutines is host code, outside this crate).  Re-registration
for the same library replaces the record. -/
structure DllRegistration where
  croutines : Option (List Unit)
  callRoutines : Option (List R_CallMethodDef)
  fortranRoutines : Option (List Unit)
  externalRoutines : Option (List Unit)
deriving DecidableEq

/-- Modelled from the spec: host-visible registration state, mapping
each library-info handle to its current registration record, if any. -/
def HostRegState : Type :=
  Nat → Option DllRegistration

/-- Modelled from the spec: the effect of one R_registerRoutines call
on the host state — the four tables passed become the record for the
library handle passed; other libraries are untouched. -/
def hostRegisterRoutines (st : HostRegState) (c : RegisterRoutinesCall) :
    HostRegState :=
  fun d =>
    if d = c.info then
      some ⟨c.croutines, c.callRoutines, c.fortranRoutines, c.externalRoutines⟩
    else st d

/-- The host state after running every host call that one invocation of
register_call_methods performs. -/
def runRegistration (st : HostRegState) (info : Nat)
    (methods : List CallMethod) : HostRegState :=
  (register_call_methods info methods).foldl hostRegisterRoutines st

/-- C1: for every input slice of N CallMethod descriptors (N = 0 and
duplicate names included) the built R_CallMethodDef table has exactly
N + 1 entries, its last entry is the all-null terminator, and entry i
is the image of descriptor i — nothing is dropped, merged or
reordered. -/
theorem call_method_table_shape (methods : List CallMethod) :
    (buildCallMethodTable methods).length = methods.length + 1 ∧
    (buildCallMethodTable methods).getLast? = some nullMethodDef ∧
    ∀ i : Nat, i < methods.length →
      (buildCallMethodTable methods)[i]? = (methods[i]?).map toCallMethodDef :=
  ⟨buildCallMethodTable_length methods, buildCallMethodTable_getLast methods,
   fun i h => buildCallMethodTable_get methods i h⟩

/-- A two-descriptor slice whose entries share one name, exercising the
duplicate-name case. -/
def exm : List CallMethod :=
  [⟨"dup", 11, 0⟩, ⟨"dup", 22, 1⟩]

/-- Witness for C1 at a concrete slice with duplicate names. -/
theorem call_method_table_shape_witness :
    (buildCallMethodTable exm).length = exm.length + 1 ∧
    (buildCallMethodTable exm).getLast? = some nullMethodDef ∧
    (buildCallMethodTable exm)[0]? = (exm[0]?).map toCallMethodDef ∧
    (buildCallMethodTable exm)[1]? = (exm[1]?).map toCallMethodDef :=
  ⟨(call_method_table_shape exm).1, (call_method_table_shape exm).2.1,
   (call_method_table_shape exm).2.2 0 (by decide),
   (call_method_table_shape exm).2.2 1 (by decide)⟩

/-- C2: entry i of the built table is exactly the triple whose name
points at descriptor i's null-terminated symbol, whose function slot
wraps descriptor i's transmuted pointer, and whose numArgs copies
descriptor i's declared count (-1 standing for variable arity), in
input order. -/
theorem call_method_table_entries (methods : List CallMethod) (i : Nat)
    (h : i < methods.length) :
    (buildCallMethodTable methods)[i]? =
      some ⟨some (methods[i].call_symbol), some (methods[i].func_ptr),
            methods[i].num_args⟩ := by
  rw [buildCallMethodTable_get methods i h, List.getElem?_eq_getElem h]
  rfl

/-- Witness for C2 at index 1 of the concrete slice. -/
theorem call_method_table_entries_witness :
    (buildCallMethodTable exm)[1]? = some ⟨some "dup", some 22, 1⟩ :=
  call_method_table_entries exm 1 (by decide)

/-- C3: registration is one host call passing the opaque library-info
handle, a null table for the non-.Call entry points, the call-method
table (whose entry count, N + 1, the host recovers), and two null
tables for the legacy Fortran and External entry kinds. -/
theorem register_single_host_call (info : Nat) (methods : List CallMethod) :
    register_call_methods info methods =
      [⟨info, none, some (buildCallMethodTable methods), none, none⟩] ∧
    (buildCallMethodTable methods).length = methods.length + 1 :=
  ⟨rfl, buildCallMethodTable_length methods⟩

/-- C4: registering twice with the same DllInfo and the same slice
leaves the host-visible state equal to the state after one
registration; each invocation appends exactly one terminator to the
mapped entries and performs exactly one host call. -/
theorem registration_idempotent (st : HostRegState) (info : Nat)
    (methods : List CallMethod) :
    runRegistration (runRegistration st info methods) info methods =
      runRegistration st info methods ∧
    buildCallMethodTable methods = methods.map toCallMethodDef ++ [nullMethodDef] ∧
    (register_call_methods info methods).length = 1 := by
  refine ⟨?_, rfl, rfl⟩
  funext d
  by_cases hd : d = info <;>
    simp [runRegistration, register_call_methods, hostRegisterRoutines, hd]

/-- C10: the appended terminator is ⟨null name, None, numArgs 0⟩ (not
the -1 variable-arity sentinel); exactly one entry of the table has the
all-null shape, whatever the input slice, and every mapped entry keeps
a non-null name and function pointer, so a genuine zero-arity
descriptor is distinguished from the terminator. -/
theorem null_sentinel_terminator (methods : List CallMethod) :
    buildCallMethodTable methods = methods.map toCallMethodDef ++ [nullMethodDef] ∧
    nullMethodDef = ⟨none, none, 0⟩ ∧
    (buildCallMethodTable methods).countP
      (fun e => e.name.isNone && e.fn.isNone) = 1 ∧
    ∀ i : Nat, i < methods.length →
      ∃ e, (buildCallMethodTable methods)[i]? = some e ∧
        e.name ≠ none ∧ e.fn ≠ none := by
  refine ⟨rfl, rfl, ?_, ?_⟩
  · simp [buildCallMethodTable, List.countP_append, List.countP_map,
      Function.comp, toCallMethodDef, nullMethodDef, List.countP_cons]
  · intro i h
    refine ⟨toCallMethodDef (methods.get ⟨i, h⟩), ?_, by simp [toCallMethodDef],
      by simp [toCallMethodDef]⟩
    rw [buildCallMethodTable_get methods i h, List.getElem?_eq_getElem h]
    rfl

/-- A one-descriptor slice whose single entry declares arity zero. -/
def exz : List CallMethod :=
  [⟨"zero", 7, 0⟩]

/-- Witness for C10 at a slice holding a genuine zero-arity
descriptor. -/
theorem null_sentinel_terminator_witness :
    buildCallMethodTable exz = exz.map toCallMethodDef ++ [nullMethodDef] ∧
    (buildCallMethodTable exz).countP
      (fun e => e.name.isNone && e.fn.isNone) = 1 ∧
    ∃ e, (buildCallMethodTable exz)[0]? = some e ∧
      e.name ≠ none ∧ e.fn ≠ none :=
  ⟨(null_sentinel_terminator exz).1, (null_sentinel_terminator exz).2.2.1,
   (null_sentinel_terminator exz).2.2.2 0 (by decide)⟩

/-- Modelled from the spec: the error classification of the marshalling
layer (the robj module of the crate is not under src/). -/
inductive MarshalError where
  | typeMismatch
  | lengthMismatch
  | outOfRange
  | hostSignaled
  | internal
deriving DecidableEq

/-- Modelled from the spec: the foreign value held behind a Handle —
one of the five primitive foreign representations: integer vectors,
real vectors, tri-state logical vectors, string vectors, and
heterogeneous named lists.  An element that is none is the per-kind
missing-value sentinel. -/
inductive HandleValue where
  | ints (xs : List (Option Int))
  | reals (xs : List (Option Rat))
  | logicals (xs : List (Option Bool))
  | strings (xs : List (Option String))
  | hlist (xs : List (String × HandleValue))

/-- The foreign type tag of a HandleValue. -/
inductive HTag where
  | ints
  | reals
  | logicals
  | strings
  | hlist
deriving DecidableEq

/-- Tag introspection on a handle value. -/
def tagOf : HandleValue → HTag
  | .ints _ => .ints
  | .reals _ => .reals
  | .logicals _ => .logicals
  | .strings _ => .strings
  | .hlist _ => .hlist

/-- Reported length of a handle value. -/
def lengthOf : HandleValue → Nat
  | .ints xs => xs.length
  | .reals xs => xs.length
  | .logicals xs => xs.length
  | .strings xs => xs.length
  | .hlist xs => xs.length

/-- Modelled from the spec: the native kinds the marshalling layer
supports — signed and unsigned integers of widths 8/16/32/64, 32/64-bit
floats, boolean, string, and sequences of 32-bit integers and of
64-bit floats. -/
inductive NativeKind where
  | i8 | i16 | i32 | i64
  | u8 | u16 | u32 | u64
  | f32 | f64
  | bool | string
  | veci32 | vecf64
deriving DecidableEq

/-- The native representation of each kind: a mathematical integer for
the integer kinds (width enforced by the range predicate), a rational
for the float kinds (float values are modelled by their exact numeric
value), and the evident types otherwise. -/
@[reducible] def NativeType : NativeKind → Type
  | .i8 | .i16 | .i32 | .i64 | .u8 | .u16 | .u32 | .u64 => Int
  | .f32 | .f64 => Rat
  | .bool => Bool
  | .string => String
  | .veci32 => List Int
  | .vecf64 => List Rat

/-- Smallest value of the foreign runtime integer type: the foreign
integer is 32 bits wide. -/
def foreignIntMin : Int := -2147483648

/-- Largest value of the foreign runtime integer type. -/
def foreignIntMax : Int := 2147483647

/-- Lower bound of each native integer kind; 0 for non-integer kinds. -/
def kindMin : NativeKind → Int
  | .i8 => -128
  | .i16 => -32768
  | .i32 => -2147483648
  | .i64 => -9223372036854775808
  | _ => 0

/-- Upper bound of each native integer kind; 0 for non-integer kinds. -/
def kindMax : NativeKind → Int
  | .i8 => 127
  | .i16 => 32767
  | .i32 => 2147483647
  | .i64 => 9223372036854775807
  | .u8 => 255
  | .u16 => 65535
  | .u32 => 4294967295
  | .u64 => 18446744073709551615
  | _ => 0

/-- Modelled from the spec: scalar integer extraction from a handle.
An integer or real handle of length one yields its value when the
value is an integer within [lo, hi], fails with outOfRange when it is
out of range or is the missing-value sentinel, fails with
lengthMismatch when the length differs from one, and fails with
typeMismatch on every other tag (no silent coercion from strings,
logicals or lists). -/
def fromIntScalar (lo hi : Int) : HandleValue → Except MarshalError Int
  | .ints [some v] =>
      if lo ≤ v ∧ v ≤ hi then .ok v else .error .outOfRange
  | .ints [none] => .error .outOfRange
  | .ints _ => .error .lengthMismatch
  | .reals [some q] =>
      if q.den = 1 ∧ lo ≤ q.num ∧ q.num ≤ hi then .ok q.num
      else .error .outOfRange
  | .reals [none] => .error .outOfRange
  | .reals _ => .error .lengthMismatch
  | _ => .error .typeMismatch

/-- Modelled from the spec: scalar float extraction — a real or integer
handle of length one yields its exact numeric value; the missing-value
sentinel has no native representation and fails with outOfRange. -/
def fromRealScalar : HandleValue → Except MarshalError Rat
  | .reals [some q] => .ok q
  | .reals [none] => .error .outOfRange
  | .reals _ => .error .lengthMismatch
  | .ints [some v] => .ok (v : Rat)
  | .ints [none] => .error .outOfRange
  | .ints _ => .error .lengthMismatch
  | _ => .error .typeMismatch

/-- Modelled from the spec: scalar boolean extraction from a tri-state
logical handle; the NA sentinel cannot map to a plain native boolean
and fails with outOfRange. -/
def fromBoolScalar : HandleValue → Except MarshalError Bool
  | .logicals [some b] => .ok b
  | .logicals [none] => .error .outOfRange
  | .logicals _ => .error .lengthMismatch
  | _ => .error .typeMismatch

/-- Modelled from the spec: scalar string extraction. -/
def fromStringScalar : HandleValue → Except MarshalError String
  | .strings [some s] => .ok s
  | .strings [none] => .error .outOfRange
  | .strings _ => .error .lengthMismatch
  | _ => .error .typeMismatch

/-- Collects a vector of elements, failing with outOfRange on a
missing-value sentinel, which plain native element kinds cannot
represent. -/
def collectElems {α : Type} : List (Option α) → Except MarshalError (List α)
  | [] => .ok []
  | some x :: rest => (collectElems rest).map (fun t => x :: t)
  | none :: _ => .error .outOfRange

/-- Modelled from the spec: extraction of a native integer sequence
from an integer-vector handle. -/
def fromIntVec : HandleValue → Except MarshalError (List Int)
  | .ints xs => collectElems xs
  | _ => .error .typeMismatch

/-- Modelled from the spec: extraction of a native float sequence from
a real-vector handle. -/
def fromRealVec : HandleValue → Except MarshalError (List Rat)
  | .reals xs => collectElems xs
  | _ => .error .typeMismatch

/-- Modelled from the spec: from_handle — extraction of each supported
native kind from a handle, dispatched on the kind. -/
def from_handle : (k : NativeKind) → HandleValue → Except MarshalError (NativeType k)
  | .i8, h => fromIntScalar (kindMin .i8) (kindMax .i8) h
  | .i16, h => fromIntScalar (kindMin .i16) (kindMax .i16) h
  | .i32, h => fromIntScalar (kindMin .i32) (kindMax .i32) h
  | .i64, h => fromIntScalar (kindMin .i64) (kindMax .i64) h
  | .u8, h => fromIntScalar (kindMin .u8) (kindMax .u8) h
  | .u16, h => fromIntScalar (kindMin .u16) (kindMax .u16) h
  | .u32, h => fromIntScalar (kindMin .u32) (kindMax .u32) h
  | .u64, h => fromIntScalar (kindMin .u64) (kindMax .u64) h
  | .f32, h => fromRealScalar h
  | .f64, h => fromRealScalar h
  | .bool, h => fromBoolScalar h
  | .string, h => fromStringScalar h
  | .veci32, h => fromIntVec h
  | .vecf64, h => fromRealVec h

/-- Modelled from the spec: scalar integer conversion into the foreign
representation.  A value inside the foreign integer width becomes a
length-one integer vector; a wider native value out of that range
fails with outOfRange rather than truncating. -/
def toIntScalar (v : Int) : Except MarshalError HandleValue :=
  if foreignIntMin ≤ v ∧ v ≤ foreignIntMax then .ok (.ints [some v])
  else .error .outOfRange

/-- Modelled from the spec: to_handle — conversion of each supported
native kind into the foreign representation.  Lossless for kinds no
wider than the foreign numeric width; range-checked for the wider
integer kinds. -/
def to_handle : (k : NativeKind) → NativeType k → Except MarshalError HandleValue
  | .i8, v => toIntScalar v
  | .i16, v => toIntScalar v
  | .i32, v => toIntScalar v
  | .i64, v => toIntScalar v
  | .u8, v => toIntScalar v
  | .u16, v => toIntScalar v
  | .u32, v => toIntScalar v
  | .u64, v => toIntScalar v
  | .f32, v => .ok (.reals [some v])
  | .f64, v => .ok (.reals [some v])
  | .bool, v => .ok (.logicals [some v])
  | .string, v => .ok (.strings [some v])
  | .veci32, xs => .ok (.ints (xs.map some))
  | .vecf64, xs => .ok (.reals (xs.map some))

/-- The value lies within the closed interval [lo, hi]. -/
def intInRange (lo hi v : Int) : Bool :=
  decide (lo ≤ v) && decide (v ≤ hi)

/-- A value is in range for its kind when it lies within the kind's own
width and within the foreign representable range (the foreign integer
type is narrower than the 64-bit and the unsigned 32-bit native
kinds). -/
def inRange : (k : NativeKind) → NativeType k → Bool
  | .i8, v => intInRange (kindMin .i8) (kindMax .i8) v
  | .i16, v => intInRange (kindMin .i16) (kindMax .i16) v
  | .i32, v => intInRange (kindMin .i32) (kindMax .i32) v
  | .i64, v => intInRange foreignIntMin foreignIntMax v
  | .u8, v => intInRange 0 (kindMax .u8) v
  | .u16, v => intInRange 0 (kindMax .u16) v
  | .u32, v => intInRange 0 foreignIntMax v
  | .u64, v => intInRange 0 foreignIntMax v
  | .f32, _ => true
  | .f64, _ => true
  | .bool, _ => true
  | .string, _ => true
  | .veci32, xs => xs.all (intInRange (kindMin .i32) (kindMax .i32))
  | .vecf64, _ => true

/-- The tags a kind accepts without a typeMismatch: numeric kinds read
integer and real handles, boolean reads logicals, string reads
strings, the sequence kinds read their own vector tag, and nothing
else. -/
def compatibleTag : NativeKind → HTag → Bool
  | .i8, t | .i16, t | .i32, t | .i64, t
  | .u8, t | .u16, t | .u32, t | .u64, t
  | .f32, t | .f64, t =>
      match t with
      | .ints => true
      | .reals => true
      | _ => false
  | .bool, t => match t with | .logicals => true | _ => false
  | .string, t => match t with | .strings => true | _ => false
  | .veci32, t => match t with | .ints => true | _ => false
  | .vecf64, t => match t with | .reals => true | _ => false

/-- The scalar kinds: every supported kind except the sequence
kinds. -/
def isScalarKind : NativeKind → Bool
  | .veci32 => false
  | .vecf64 => false
  | _ => true

-- Helper lemmas on the conversion primitives.

theorem toIntScalar_ok (v : Int) (h1 : foreignIntMin ≤ v)
    (h2 : v ≤ foreignIntMax) :
    toIntScalar v = .ok (.ints [some v]) := by
  simp [toIntScalar, h1, h2]

theorem fromIntScalar_ok (lo hi v : Int) (h1 : lo ≤ v) (h2 : v ≤ hi) :
    fromIntScalar lo hi (.ints [some v]) = .ok v := by
  simp [fromIntScalar, h1, h2]

theorem int_kind_round (lo hi v : Int) (h1 : lo ≤ v) (h2 : v ≤ hi)
    (hf1 : foreignIntMin ≤ v) (hf2 : v ≤ foreignIntMax) :
    (toIntScalar v).bind (fromIntScalar lo hi) = .ok v := by
  rw [toIntScalar_ok v hf1 hf2]
  exact fromIntScalar_ok lo hi v h1 h2

theorem collectElems_map_some {α : Type} (xs : List α) :
    collectElems (xs.map some) = .ok xs := by
  induction xs with
  | nil => rfl
  | cons x t ih => simp [collectElems, ih, Except.map]

theorem fromIntScalar_ints_len (lo hi : Int) (xs : List (Option Int))
    (h : xs.length ≠ 1) :
    fromIntScalar lo hi (.ints xs) = .error .lengthMismatch := by
  match xs with
  | [] => rfl
  | [a] => exact absurd rfl h
  | a :: b :: t => cases a <;> rfl

theorem fromIntScalar_reals_len (lo hi : Int) (xs : List (Option Rat))
    (h : xs.length ≠ 1) :
    fromIntScalar lo hi (.reals xs) = .error .lengthMismatch := by
  match xs with
  | [] => rfl
  | [a] => exact absurd rfl h
  | a :: b :: t => cases a <;> rfl

theorem fromRealScalar_reals_len (xs : List (Option Rat))
    (h : xs.length ≠ 1) :
    fromRealScalar (.reals xs) = .error .lengthMismatch := by
  match xs with
  | [] => rfl
  | [a] => exact absurd rfl h
  | a :: b :: t => cases a <;> rfl

theorem fromRealScalar_ints_len (xs : List (Option Int))
    (h : xs.length ≠ 1) :
    fromRealScalar (.ints xs) = .error .lengthMismatch := by
  match xs with
  | [] => rfl
  | [a] => exact absurd rfl h
  | a :: b :: t => cases a <;> rfl

theorem fromBoolScalar_len (xs : List (Option Bool))
    (h : xs.length ≠ 1) :
    fromBoolScalar (.logicals xs) = .error .lengthMismatch := by
  match xs with
  | [] => rfl
  | [a] => exact absurd rfl h
  | a :: b :: t => cases a <;> rfl

theorem fromStringScalar_len (xs : List (Option String))
    (h : xs.length ≠ 1) :
    fromStringScalar (.strings xs) = .error .lengthMismatch := by
  match xs with
  | [] => rfl
  | [a] => exact absurd rfl h
  | a :: b :: t => cases a <;> rfl

/-- C6: an incompatible foreign tag makes from_handle fail with
typeMismatch for every kind, with no silent coercion between
incompatible kinds; a scalar kind read from a compatible vector of
length other than one fails with lengthMismatch. -/
theorem marshal_mismatch_errors (k : NativeKind) (h : HandleValue) :
    (compatibleTag k (tagOf h) = false →
      from_handle k h = .error .typeMismatch) ∧
    (compatibleTag k (tagOf h) = true → isScalarKind k = true →
      lengthOf h ≠ 1 → from_handle k h = .error .lengthMismatch) := by
  constructor
  · intro hc
    cases k <;> cases h <;> first
      | rfl
      | (simp [compatibleTag, tagOf] at hc; done)
  · intro hc hs hl
    cases k <;> cases h <;> first
      | exact fromIntScalar_ints_len _ _ _ (by simpa [lengthOf] using hl)
      | exact fromIntScalar_reals_len _ _ _ (by simpa [lengthOf] using hl)
      | exact fromRealScalar_ints_len _ (by simpa [lengthOf] using hl)
      | exact fromRealScalar_reals_len _ (by simpa [lengthOf] using hl)
      | exact fromBoolScalar_len _ (by simpa [lengthOf] using hl)
      | exact fromStringScalar_len _ (by simpa [lengthOf] using hl)
      | (simp [compatibleTag, tagOf] at hc; done)
      | (simp [isScalarKind] at hs; done)

/-- Witness for C6: a string read from a numeric handle is a
typeMismatch; a 32-bit scalar read from a length-two integer vector is
a lengthMismatch. -/
theorem marshal_mismatch_errors_witness :
    compatibleTag .string (tagOf (.ints [some 1])) = false ∧
    from_handle .string (.ints [some 1]) = .error .typeMismatch ∧
    compatibleTag .i32 (tagOf (.ints [some 1, some 2])) = true ∧
    isScalarKind .i32 = true ∧
    lengthOf (.ints [some 1, some 2]) ≠ 1 ∧
    from_handle .i32 (.ints [some 1, some 2]) = .error .lengthMismatch :=
  ⟨rfl, (marshal_mismatch_errors .string (.ints [some 1])).1 rfl,
   rfl, rfl, by decide,
   (marshal_mismatch_errors .i32 (.ints [some 1, some 2])).2 rfl rfl
     (by decide)⟩

theorem round_i8 (v : Int) (h : inRange .i8 v = true) :
    (toIntScalar v).bind (fromIntScalar (kindMin .i8) (kindMax .i8)) = .ok v := by
  simp only [inRange, intInRange, Bool.and_eq_true, decide_eq_true_eq, kindMin,
    kindMax, foreignIntMin, foreignIntMax] at h
  refine int_kind_round _ _ v ?_ ?_ ?_ ?_ <;>
    simp only [kindMin, kindMax, foreignIntMin, foreignIntMax] <;> omega

theorem round_i16 (v : Int) (h : inRange .i16 v = true) :
    (toIntScalar v).bind (fromIntScalar (kindMin .i16) (kindMax .i16)) = .ok v := by
  simp only [inRange, intInRange, Bool.and_eq_true, decide_eq_true_eq, kindMin,
    kindMax, foreignIntMin, foreignIntMax] at h
  refine int_kind_round _ _ v ?_ ?_ ?_ ?_ <;>
    simp only [kindMin, kindMax, foreignIntMin, foreignIntMax] <;> omega

theorem round_i32 (v : Int) (h : inRange .i32 v = true) :
    (toIntScalar v).bind (fromIntScalar (kindMin .i32) (kindMax .i32)) = .ok v := by
  simp only [inRange, intInRange, Bool.and_eq_true, decide_eq_true_eq, kindMin,
    kindMax, foreignIntMin, foreignIntMax] at h
  refine int_kind_round _ _ v ?_ ?_ ?_ ?_ <;>
    simp only [kindMin, kindMax, foreignIntMin, foreignIntMax] <;> omega

theorem round_i64 (v : Int) (h : inRange .i64 v = true) :
    (toIntScalar v).bind (fromIntScalar (kindMin .i64) (kindMax .i64)) = .ok v := by
  simp only [inRange, intInRange, Bool.and_eq_true, decide_eq_true_eq, kindMin,
    kindMax, foreignIntMin, foreignIntMax] at h
  refine int_kind_round _ _ v ?_ ?_ ?_ ?_ <;>
    simp only [kindMin, kindMax, foreignIntMin, foreignIntMax] <;> omega

theorem round_u8 (v : Int) (h : inRange .u8 v = true) :
    (toIntScalar v).bind (fromIntScalar (kindMin .u8) (kindMax .u8)) = .ok v := by
  simp only [inRange, intInRange, Bool.and_eq_true, decide_eq_true_eq, kindMin,
    kindMax, foreignIntMin, foreignIntMax] at h
  refine int_kind_round _ _ v ?_ ?_ ?_ ?_ <;>
    simp only [kindMin, kindMax, foreignIntMin, foreignIntMax] <;> omega

theorem round_u16 (v : Int) (h : inRange .u16 v = true) :
    (toIntScalar v).bind (fromIntScalar (kindMin .u16) (kindMax .u16)) = .ok v := by
  simp only [inRange, intInRange, Bool.and_eq_true, decide_eq_true_eq, kindMin,
    kindMax, foreignIntMin, foreignIntMax] at h
  refine int_kind_round _ _ v ?_ ?_ ?_ ?_ <;>
    simp only [kindMin, kindMax, foreignIntMin, foreignIntMax] <;> omega

theorem round_u32 (v : Int) (h : inRange .u32 v = true) :
    (toIntScalar v).bind (fromIntScalar (kindMin .u32) (kindMax .u32)) = .ok v := by
  simp only [inRange, intInRange, Bool.and_eq_true, decide_eq_true_eq, kindMin,
    kindMax, foreignIntMin, foreignIntMax] at h
  refine int_kind_round _ _ v ?_ ?_ ?_ ?_ <;>
    simp only [kindMin, kindMax, foreignIntMin, foreignIntMax] <;> omega

theorem round_u64 (v : Int) (h : inRange .u64 v = true) :
    (toIntScalar v).bind (fromIntScalar (kindMin .u64) (kindMax .u64)) = .ok v := by
  simp only [inRange, intInRange, Bool.and_eq_true, decide_eq_true_eq, kindMin,
    kindMax, foreignIntMin, foreignIntMax] at h
  refine int_kind_round _ _ v ?_ ?_ ?_ ?_ <;>
    simp only [kindMin, kindMax, foreignIntMin, foreignIntMax] <;> omega

/-- C7: for every supported native kind and every in-range value,
converting to a handle and extracting at the same kind gives back the
value unchanged. -/
theorem marshal_round_trip (k : NativeKind) (v : NativeType k)
    (h : inRange k v = true) :
    (to_handle k v).bind (from_handle k) = .ok v := by
  cases k
  case i8 => exact round_i8 v h
  case i16 => exact round_i16 v h
  case i32 => exact round_i32 v h
  case i64 => exact round_i64 v h
  case u8 => exact round_u8 v h
  case u16 => exact round_u16 v h
  case u32 => exact round_u32 v h
  case u64 => exact round_u64 v h
  case f32 => rfl
  case f64 => rfl
  case bool => rfl
  case string => rfl
  case veci32 =>
    show collectElems (v.map some) = _
    exact collectElems_map_some v
  case vecf64 =>
    show collectElems (v.map some) = _
    exact collectElems_map_some v

/-- Witness for C7: the value 123 at an unsigned 8-bit, a 64-bit
integer and a 64-bit float kind survives the round trip. -/
theorem marshal_round_trip_witness :
    inRange .u8 (123 : Int) = true ∧
    (to_handle .u8 123).bind (from_handle .u8) = .ok 123 ∧
    inRange .i64 (123 : Int) = true ∧
    (to_handle .i64 123).bind (from_handle .i64) = .ok 123 ∧
    inRange .f64 (123 : Rat) = true ∧
    (to_handle .f64 123).bind (from_handle .f64) = .ok 123 :=
  ⟨by decide, marshal_round_trip .u8 123 (by decide),
   by decide, marshal_round_trip .i64 123 (by decide),
   rfl, marshal_round_trip .f64 123 rfl⟩

/-- C8: converting a native 64-bit integer outside the foreign integer
range fails with outOfRange and never truncates; conversion of every
in-range 64-bit value succeeds, producing the untruncated scalar. -/
theorem i64_range_rejection (v : Int) :
    ((v < foreignIntMin ∨ foreignIntMax < v) →
      to_handle .i64 v = .error .outOfRange) ∧
    (foreignIntMin ≤ v → v ≤ foreignIntMax →
      to_handle .i64 v = .ok (.ints [some v])) := by
  constructor
  · intro hv
    show toIntScalar v = _
    rw [toIntScalar, if_neg]
    rcases hv with hv | hv <;> intro hand <;> exact absurd hand (by omega)
  · intro h1 h2
    show toIntScalar v = _
    rw [toIntScalar, if_pos ⟨h1, h2⟩]

/-- Witness for C8: 2^31 is rejected with outOfRange, 5 converts
exactly. -/
theorem i64_range_rejection_witness :
    ((2147483648 : Int) < foreignIntMin ∨ foreignIntMax < 2147483648) ∧
    to_handle .i64 2147483648 = .error .outOfRange ∧
    foreignIntMin ≤ (5 : Int) ∧ (5 : Int) ≤ foreignIntMax ∧
    to_handle .i64 5 = .ok (.ints [some 5]) :=
  ⟨Or.inr (by decide),
   (i64_range_rejection 2147483648).1 (Or.inr (by decide)),
   by decide, by decide,
   (i64_range_rejection 5).2 (by decide) (by decide)⟩

/-- Modelled from the spec: the generated C-ABI wrapper for a native
function declared with an 8-bit and a 16-bit integer parameter (the
code generator emitting wrapper bodies is outside src/).  Each raw
argument handle is marshalled to its declared native width in declared
order, and only when both conversions succeed does the body run on the
native values. -/
def wrap_i8_i16 {α : Type} (body : Int → Int → α) (a b : HandleValue) :
    Except MarshalError α := do
  let x ← from_handle .i8 a
  let y ← from_handle .i16 b
  pure (body x y)

/-- A host scalar integer value, as the host passes it to a wrapper. -/
def hostIntScalar (v : Int) : HandleValue :=
  .ints [some v]

/-- C5: calling the wrapper of a function declared (i8, i16) with host
scalars 1 and 2 makes the body observe exactly the native values 1 and
2, marshalled at the declared widths in declared order. -/
theorem wrapper_marshals_declared_widths {α : Type} (body : Int → Int → α) :
    wrap_i8_i16 body (hostIntScalar 1) (hostIntScalar 2) = .ok (body 1 2) :=
  rfl

/-- Modelled from the spec: the protection stack — the foreign runtime
mechanism marking objects unreachable-by-collector while native code
holds a reference, as a stack of protected object ids. -/
def ProtStack : Type :=
  List Nat

/-- Modelled from the spec: the ownership mode of a handle, immutable
after creation. -/
inductive Ownership where
  | owned
  | borrowed
deriving DecidableEq

/-- Registers one object on the protection stack. -/
def protectPush (obj : Nat) (st : ProtStack) : ProtStack :=
  obj :: st

/-- Unregisters the most recently protected object. -/
def protectPop (st : ProtStack) : ProtStack :=
  st.tail

/-- Modelled from the spec: constructing a handle — an owned handle
registers protection for its object; a borrowed handle never
registers. -/
def constructHandle : Ownership → Nat → ProtStack → ProtStack
  | .owned, obj, st => protectPush obj st
  | .borrowed, _, st => st

/-- Modelled from the spec: dropping a handle — an owned handle
unregisters its protection exactly once; dropping a borrowed handle
does not touch the stack. -/
def dropHandle : Ownership → ProtStack → ProtStack
  | .owned, st => protectPop st
  | .borrowed, st => st

/-- Constructs owned handles for the objects in order. -/
def constructOwnedAll (objs : List Nat) (st : ProtStack) : ProtStack :=
  objs.foldl (fun s o => constructHandle .owned o s) st

/-- Drops n owned handles, most recently constructed first. -/
def dropOwned : Nat → ProtStack → ProtStack
  | 0, st => st
  | n + 1, st => dropOwned n (dropHandle .owned st)

/-- Modelled from the spec: a construction sequence that builds owned
handles for the first k objects and then hits an injected failure;
error propagation drops every handle constructed so far before the
failure escapes. -/
def constructThenFail (objs : List Nat) (k : Nat) (st : ProtStack) :
    ProtStack :=
  dropOwned k (constructOwnedAll (objs.take k) st)

theorem dropOwned_outer (n : Nat) (st : ProtStack) :
    dropOwned (n + 1) st = dropHandle .owned (dropOwned n st) := by
  induction n generalizing st with
  | zero => rfl
  | succ m ih =>
      show dropOwned (m + 1) (dropHandle .owned st) = _
      rw [ih (dropHandle .owned st)]
      rfl

theorem dropOwned_constructOwnedAll (objs : List Nat) (st : ProtStack) :
    dropOwned objs.length (constructOwnedAll objs st) = st := by
  induction objs generalizing st with
  | nil => rfl
  | cons o t ih =>
      show dropOwned (t.length + 1) (constructOwnedAll t (o :: st)) = st
      rw [dropOwned_outer, ih (o :: st)]
      rfl

/-- C9: constructing N owned handles and dropping them in reverse order
returns the protection stack to its prior depth; an owned construction
registers exactly one protection and its drop removes exactly that one;
a borrowed handle never registers or unregisters; and a failure
injected after k of the constructions unwinds to exactly the
pre-construction stack. -/
theorem protection_lifo (st : ProtStack) (objs : List Nat) (obj : Nat)
    (k : Nat) (hk : k ≤ objs.length) :
    dropOwned objs.length (constructOwnedAll objs st) = st ∧
    (constructHandle .owned obj st).length = st.length + 1 ∧
    dropHandle .owned (constructHandle .owned obj st) = st ∧
    constructHandle .borrowed obj st = st ∧
    dropHandle .borrowed st = st ∧
    constructThenFail objs k st = st := by
  refine ⟨dropOwned_constructOwnedAll objs st, rfl, rfl, rfl, rfl, ?_⟩
  show dropOwned k (constructOwnedAll (objs.take k) st) = st
  have hlen : (objs.take k).length = k := by
    simp [List.length_take, Nat.min_eq_left hk]
  have hall := dropOwned_constructOwnedAll (objs.take k) st
  rwa [hlen] at hall

/-- Witness for C9 at a three-object stack with a failure after two
constructions. -/
theorem protection_lifo_witness :
    2 ≤ ([4, 5, 6] : List Nat).length ∧
    dropOwned 3 (constructOwnedAll [4, 5, 6] [99]) = [99] ∧
    constructThenFail [4, 5, 6] 2 [99] = [99] :=
  ⟨by decide, (protection_lifo [99] [4, 5, 6] 7 2 (by decide)).1,
   (protection_lifo [99] [4, 5, 6] 7 2 (by decide)).2.2.2.2.2⟩
